import Mathlib

set_option maxRecDepth 8000

/-!
Verification of the query-result-to-chart transformation pipeline of the
pestcontrol CRM frontend.

The pipeline appears in three near-identical places in the source:
`buildChartData` in `src/App.jsx` (the primary assembler, sampling up to the
first 3 rows when classifying fields), `buildChartData` in
`components/ReportsView.jsx` and in the `useCharts` hook (both sampling only
the first row), and the rendering-layer computations in
`components/DashboardStatsWidget.jsx` (`ReportChart`, `formatValue`).

JavaScript values appearing in query-result cells are modelled by `JVal`;
machine floats are modelled by `ℚ` (all model numbers are finite; the
non-finite guards of the source collapse to the non-number cases).
-/

namespace PestCRM

/-- Model of a JavaScript value stored in a query-result cell or passed
through the pipeline: a finite number, a string, a boolean, `null` or
`undefined`. -/
inductive JVal where
  | num : ℚ → JVal
  | str : String → JVal
  | bool : Bool → JVal
  | null : JVal
  | undef : JVal
deriving DecidableEq, Repr

/-- A row of a query result: a JS object modelled as an association list in
key-insertion order (JS object keys are unique; `Object.keys` returns them in
insertion order). -/
abbrev Row := List (String × JVal)

/-- Value of `row[k]` when `k` is an own property, `none` otherwise
(`Object.prototype.hasOwnProperty.call(row, k)` guard plus access). -/
def rowGet (r : Row) (k : String) : Option JVal :=
  (r.find? (fun p => p.1 == k)).map (fun p => p.2)

/-- `toLowerCase()` on a string, computed character by character (the inputs
are ASCII column names). -/
def lowerStr (s : String) : String :=
  String.mk (s.toList.map Char.toLower)

/-- `normalizeKey` from the source:
`key => (key ?? "").toString().toLowerCase().replace(/[\s_]/g, "")` applied to
a string key. -/
def normalizeKey (k : String) : String :=
  String.mk ((lowerStr k).toList.filter (fun c => !(c == '_' || c.isWhitespace)))

/-- JS truthiness of an optional string (`undefined` and `""` are falsy). -/
def jsFalsyS : Option String → Bool
  | none => true
  | some s => s == ""

/-- `resolveFieldValue(row, field)` from the source.  `row = none` models a
null/undefined row, `field = none` a null/undefined field name; the source
guard `if (!row || !field) return undefined` also fires on the empty string
(falsy).  Resolution order: exact own-property match, then case-insensitive
key match, then match after normalising both sides.  The source tests each
fuzzy match with `if (lowerMatch)` / `if (normalizedMatch)`: a found key
that is the empty string is falsy, so control falls through to the next
stage (and past the last stage to `undefined`); `jsFalsyS` models exactly
that truthiness test on the `find` result. -/
def resolveFieldValue (row : Option Row) (field : Option String) : Option JVal :=
  match row, field with
  | none, _ => none
  | _, none => none
  | some r, some f =>
    if f = "" then none
    else
      match rowGet r f with
      | some v => some v
      | none =>
        let lowerMatch := (r.map (fun p => p.1)).find? (fun k => lowerStr k == lowerStr f)
        if jsFalsyS lowerMatch then
          let normalizedMatch :=
            (r.map (fun p => p.1)).find? (fun k => normalizeKey k == normalizeKey f)
          if jsFalsyS normalizedMatch then none
          else rowGet r (normalizedMatch.getD "")
        else rowGet r (lowerMatch.getD "")

/-- Digits-to-value accumulator used by the numeric parsers. -/
def digitsVal (ds : List Char) : ℕ :=
  ds.foldl (fun a c => a * 10 + (c.toNat - 48)) 0

/-- `parseFloat` applied to a string (character-list form): skip leading
whitespace, optional sign, integer digits, optional fraction, optional
exponent; `none` models `NaN` (no digits could be consumed).  The JS
`Infinity` literal is not representable in the finite model and parses to
`none`; no pipeline input exercises it. -/
def parseFloatChars (cs : List Char) : Option ℚ :=
  let (neg, cs1) :=
    match cs with
    | '-' :: t => (true, t)
    | '+' :: t => (false, t)
    | _ => (false, cs)
  let ip := cs1.takeWhile Char.isDigit
  let cs2 := cs1.dropWhile Char.isDigit
  let (fp, cs3) :=
    match cs2 with
    | '.' :: t => (t.takeWhile Char.isDigit, t.dropWhile Char.isDigit)
    | _ => ([], cs2)
  if ip.isEmpty && fp.isEmpty then none
  else
    let mant : ℚ := (digitsVal ip : ℚ) + (digitsVal fp : ℚ) / ((10 : ℚ) ^ fp.length)
    let expo : ℤ :=
      match cs3 with
      | 'e' :: t =>
        let (eneg, t1) :=
          match t with
          | '-' :: u => (true, u)
          | '+' :: u => (false, u)
          | _ => (false, t)
        let ed := t1.takeWhile Char.isDigit
        if ed.isEmpty then 0 else if eneg then -(digitsVal ed : ℤ) else (digitsVal ed : ℤ)
      | 'E' :: t =>
        let (eneg, t1) :=
          match t with
          | '-' :: u => (true, u)
          | '+' :: u => (false, u)
          | _ => (false, t)
        let ed := t1.takeWhile Char.isDigit
        if ed.isEmpty then 0 else if eneg then -(digitsVal ed : ℤ) else (digitsVal ed : ℤ)
      | _ => 0
    let v := mant * (10 : ℚ) ^ expo
    some (if neg then -v else v)

/-- `parseFloat` on a string; `none` models `NaN`. -/
def jsParseFloat (s : String) : Option ℚ :=
  parseFloatChars (s.toList.dropWhile Char.isWhitespace)

/-- `parseFloat` on an arbitrary JS value (JS coerces the argument to a
string first: `null → "null"`, `undefined → "undefined"`,
`true/false → "true"/"false"`; a finite number round-trips through its
decimal rendering). -/
def jsParseFloatVal : JVal → Option ℚ
  | .num q => some q
  | .str s => jsParseFloat s
  | .bool b => jsParseFloat (if b then "true" else "false")
  | .null => jsParseFloat "null"
  | .undef => jsParseFloat "undefined"

/-- `o || d` for an optional string `o` and default `d` (falsy `o`, i.e.
absent or empty, yields the default). -/
def jsOrStr (o : Option String) (d : String) : String :=
  match o with
  | some s => if s = "" then d else s
  | none => d

/-- Numeric-cell test used by the classifiers:
`typeof value === "number" || !isNaN(parseFloat(value))`. -/
def isNumericVal : JVal → Bool
  | .num _ => true
  | v => (jsParseFloatVal v).isSome

/-- Field-is-numeric probe of the `App.jsx` assembler: loop over the first
`min(3, rows.length)` rows, skip null/undefined resolved values, and stop at
the first sample that is a number or parses as a float (the loop's `break`
makes it an existence check over the first three rows). -/
def isFieldNumeric3 (rows : List Row) (field : String) : Bool :=
  (rows.take 3).any (fun r =>
    match resolveFieldValue (some r) (some field) with
    | none => false
    | some .null => false
    | some .undef => false
    | some v => isNumericVal v)

/-- Field-is-numeric probe of the `ReportsView.jsx` and `useCharts` variants:
only `rows[0]` is consulted, with no null guard
(`typeof firstValue === "number" || !isNaN(parseFloat(firstValue))`;
`parseFloat(undefined)` and `parseFloat(null)` are `NaN`). -/
def isFieldNumeric1 (rows : List Row) (field : String) : Bool :=
  match resolveFieldValue rows.head? (some field) with
  | none => false
  | some (.num _) => true
  | some v => (jsParseFloatVal v).isSome

/-- The classifier loop of `buildChartData`: for each selected field in
order, a non-numeric field is made the category field while the category
variable is still falsy (initially `null`, and an empty-string assignment
stays falsy); every other field is appended to the value fields. -/
def classifyLoop (isNum : String → Bool) :
    List String → Option String → List String → Option String × List String
  | [], cat, vals => (cat, vals)
  | f :: rest, cat, vals =>
    if !(isNum f) && jsFalsyS cat then classifyLoop isNum rest (some f) vals
    else classifyLoop isNum rest cat (vals ++ [f])

/-- The classifier of `buildChartData` including its fallback
(`if (!categoryField && selected.length > 0)` then the first selected field
becomes the category and the rest the value fields). -/
def classifyFields (isNum : String → Bool) (selected : List String) :
    Option String × List String :=
  let p := classifyLoop isNum selected none []
  if jsFalsyS p.1 && decide (0 < selected.length) then
    (some (selected.headD ""), selected.tail)
  else p

/-- `x || 0` applied to a parse result (`0` and `NaN` are falsy). -/
def jsTruthyOrZero (o : Option ℚ) : ℚ :=
  match o with
  | some q => if q = 0 then 0 else q
  | none => 0

/-- Series-cell coercion of the source:
`typeof val === "number" ? val : parseFloat(val) || 0`; a missing value
(`undefined`) goes through `parseFloat("undefined")`, hence `0`. -/
def coerceNumeric (val : Option JVal) : ℚ :=
  match val with
  | some (.num q) => q
  | some v => jsTruthyOrZero (jsParseFloatVal v)
  | none => jsTruthyOrZero (jsParseFloatVal .undef)

/-- Scale decision of the `App.jsx` assembler:
only when `series.length > 1`, compare `Math.max(...maxVals)` against
`20 × Math.min(...maxVals.filter(v => v > 0))`, where
`maxVals = series.map(s => Math.max(...s.data, 0))`.  When the positive
filter is empty `Math.min()` is `+Infinity` and the comparison is false. -/
def useSeparateScaleApp (series : List (List ℚ)) : Bool :=
  if 1 < series.length then
    let maxVals := series.map (fun d => d.foldl max 0)
    let bigMax : ℚ :=
      match maxVals with
      | [] => 0
      | m :: ms => ms.foldl max m
    match maxVals.filter (fun v => decide (0 < v)) with
    | [] => false
    | p :: ps => decide (bigMax > (ps.foldl min p) * 20)
  else false

/-- Per-series maximum of the rendering-layer reconciler
(`DashboardStatsWidget.ReportChart`):
`Math.max(1, nums.length ? Math.max(...nums) : 0)`. -/
def seriesMaxW (data : List ℚ) : ℚ :=
  max 1
    (match data with
     | [] => 0
     | x :: xs => xs.foldl max x)

/-- Scale decision of the rendering layer (`ReportChart`):
`sharedMax = Math.max(1, ...seriesMaxValues, 1)`,
`minSeriesMax = seriesMaxValues.length ? Math.max(1, Math.min(...seriesMaxValues)) : 1`,
`useSeparateScale = sharedMax / minSeriesMax > 20`. -/
def useSeparateScaleW (series : List (List ℚ)) : Bool :=
  let sm := series.map seriesMaxW
  let sharedMax := max 1 (sm.foldl max 1)
  let minSeriesMax : ℚ :=
    match sm with
    | [] => 1
    | m :: ms => max 1 (ms.foldl min m)
  decide (sharedMax / minSeriesMax > 20)

/-- Left-pad a digit string with zeros to length `d`. -/
def leftPad0 (d : ℕ) (s : String) : String :=
  String.mk (List.replicate (d - s.length) '0') ++ s

/-- Split a (reversed) digit list into groups of three, for thousand
separators. -/
def chunk3 : List Char → List (List Char)
  | [] => []
  | [a] => [[a]]
  | [a, b] => [[a, b]]
  | a :: b :: c :: rest => [a, b, c] :: chunk3 rest

/-- Insert `en-US` thousand separators into a digit string. -/
def group3 (s : String) : String :=
  String.intercalate "," (((chunk3 s.toList.reverse).map (fun g => String.mk g.reverse)).reverse)

/-- Round half away from zero on a nonnegative rational (the default
`Intl.NumberFormat` rounding, `halfExpand`). -/
def roundHalfUp (q : ℚ) : ℕ :=
  (⌊q + 1 / 2⌋).toNat

/-- Decimal rendering of `|q|` at exactly `d` fraction digits (no sign). -/
def fixedDigits (q : ℚ) (d : ℕ) : String × String :=
  let scaled := roundHalfUp (|q| * (10 : ℚ) ^ d)
  (toString (scaled / 10 ^ d), leftPad0 d (toString (scaled % 10 ^ d)))

/-- `Intl.NumberFormat(en-US, decimal style, minimumFractionDigits d,
maximumFractionDigits d).format(q)`: grouped thousands, exactly `d` fraction
digits, half-away-from-zero rounding, leading `-` for negative inputs. -/
def formatGrouped (q : ℚ) (d : ℕ) : String :=
  let p := fixedDigits q d
  (if q < 0 then "-" else "") ++ group3 p.1 ++ (if d = 0 then "" else "." ++ p.2)

/-- `Intl.NumberFormat(en-US, currency style, USD)`:
as `formatGrouped` with a `$` between the sign and the digits. -/
def formatCurrencyUSD (q : ℚ) (d : ℕ) : String :=
  let p := fixedDigits q d
  (if q < 0 then "-" else "") ++ "$" ++ group3 p.1 ++ (if d = 0 then "" else "." ++ p.2)

/-- `Number.prototype.toFixed(d)`: fixed decimals, no grouping. -/
def toFixedStr (q : ℚ) (d : ℕ) : String :=
  let p := fixedDigits q d
  (if q < 0 then "-" else "") ++ p.1 ++ (if d = 0 then "" else "." ++ p.2)

/-- `parseInt(s, 10)`: skip whitespace, optional sign, base-10 digits;
`none` models `NaN` (no digit could be consumed). -/
def jsParseInt (s : String) : Option ℤ :=
  let cs := s.toList.dropWhile Char.isWhitespace
  let (neg, cs1) :=
    match cs with
    | '-' :: t => (true, t)
    | '+' :: t => (false, t)
    | _ => (false, cs)
  let ds := cs1.takeWhile Char.isDigit
  if ds.isEmpty then none
  else some (if neg then -(digitsVal ds : ℤ) else (digitsVal ds : ℤ))

/-- Format-string parsing of `formatValue`:
`const [formatType, decimalsStr] = (fmt || "number").split(":")` and
`const decimals = decimalsStr ? parseInt(decimalsStr, 10) : undefined`.
The `decimals` variable is `undefined` (outer `none`), `NaN` (inner `none`),
or a parsed integer. -/
def parseFmt (fmt : Option String) : String × Option (Option ℤ) :=
  let fmtStr := jsOrStr fmt "number"
  let parts := fmtStr.splitOn ":"
  (parts.headD "",
   match parts[1]? with
   | some ds => if ds = "" then none else some (jsParseInt ds)
   | none => none)

/-- The fraction-digit count fed to `Intl.NumberFormat` after
`decimals !== undefined ? decimals : dflt`: `none` models the `RangeError`
the constructor throws when the digits are `NaN`, negative, or above 100
(the ECMA-402 fraction-digit range is 0..100). -/
def intlFractionDigits (dec : Option (Option ℤ)) (dflt : ℕ) : Option ℕ :=
  match dec with
  | none => some dflt
  | some none => none
  | some (some z) => if 0 ≤ z ∧ z ≤ 100 then some z.toNat else none

/-- `formatValue(val, fmt)` of `DashboardStatsWidget.jsx`: non-finite (here:
non-number) inputs pass through unchanged; otherwise dispatch on the format
type with default decimals 0 (currency, number) or 1 (percentage); the
percentage branch appends a literal `%` and performs no scaling.  A thrown
`RangeError` (fraction digits `NaN`, negative, or above 100) is modelled by
`none`. -/
def formatValue (val : JVal) (fmt : Option String) : Option JVal :=
  match val with
  | .num q =>
    let p := parseFmt fmt
    if p.1 = "currency" then
      (intlFractionDigits p.2 0).map (fun d => .str (formatCurrencyUSD q d))
    else if p.1 = "percentage" then
      (intlFractionDigits p.2 1).map (fun d => .str (formatGrouped q d ++ "%"))
    else
      (intlFractionDigits p.2 0).map (fun d => .str (formatGrouped q d))
  | v => some v

/-- `x || 0` on a number (0 is falsy; the model has no NaN numbers). -/
def jsNumOrZero (t : ℚ) : ℚ :=
  if t = 0 then 0 else t

/-- Percentage text of one pie slice in `ReportChart`:
`total = series[0].data.reduce((a,b) => a + (finite b ? b : 0), 0) || 0`,
`rawVal = finite(data[idx]) ? data[idx] : 0`,
`pct = total ? ((rawVal / total) * 100).toFixed(1) : "0.0"`. -/
def pieSlicePct (data : List ℚ) (idx : ℕ) : String :=
  let total := jsNumOrZero (data.foldl (fun a b => a + b) 0)
  let rawVal := (data.get? idx).getD 0
  if total = 0 then "0.0" else toFixedStr ((rawVal / total) * 100) 1

/-- The rendered slice annotation `({pct}%)` content: `pct` plus the literal
percent sign. -/
def pieSliceLabel (data : List ℚ) (idx : ℕ) : String :=
  pieSlicePct data idx ++ "%"

/-- Remove trailing zeros of a fraction-digit string (JS number rendering). -/
def stripZeros (s : String) : String :=
  String.mk (s.toList.reverse.dropWhile (fun c => c == '0')).reverse

/-- `String(n)` for a finite JS number: exact for terminating decimals (the
only rationals that arise from parsed floats); other rationals fall back to a
fraction rendering that no pipeline value reaches. -/
def ratToJsString (q : ℚ) : String :=
  let sign := if q < 0 then "-" else ""
  let n := |q|.num.toNat
  let d := |q|.den
  match (List.range 21).find? (fun k => decide (d ∣ 10 ^ k)) with
  | some k =>
    let scaled := n * 10 ^ k / d
    let ip := scaled / 10 ^ k
    let fp := scaled % 10 ^ k
    if fp = 0 then sign ++ toString ip
    else sign ++ toString ip ++ "." ++ stripZeros (leftPad0 k (toString fp))
  | none => sign ++ toString n ++ "/" ++ toString d

/-- `String(v ?? "")` on a resolved value: nullish values (missing key, null,
undefined) collapse to the empty string, everything else is stringified. -/
def categoryString (v : Option JVal) : String :=
  match v with
  | none => ""
  | some .null => ""
  | some .undef => ""
  | some (.num q) => ratToJsString q
  | some (.str s) => s
  | some (.bool b) => if b then "true" else "false"

/-- One output series of the assembler:
`{ name: displayName, originalName: field, data }`. -/
structure SeriesOut where
  name : String
  originalName : String
  data : List ℚ
deriving DecidableEq, Repr

/-- The `displayOptions` of the output:
`{...chartDisplayOptions[reportId], useSeparateScale}` — the persisted
options spread first, the derived flag overriding. -/
structure DisplayOptionsOut where
  base : List (String × JVal)
  useSeparateScale : Bool
deriving DecidableEq, Repr

/-- The assembler's output (`null` is modelled by `Option`): either the
table short-circuit or a full chart spec. -/
inductive ChartOut where
  | table (columns : List String) (rows : List Row)
  | chart (type : String) (categories : List String) (series : List SeriesOut)
      (xLabel yLabel : String) (seriesFormats : List (String × String))
      (displayOptions : DisplayOptionsOut)
deriving DecidableEq, Repr

/-- Lookup in a string-valued JS object (`obj?.[k]`). -/
def lookupStr (m : List (String × String)) (k : String) : Option String :=
  (m.find? (fun p => p.1 == k)).map (fun p => p.2)

/-- Assignment `obj[k] = v` on an object modelled as an assoc list: an
existing key keeps its position and gets the new value, a new key is
appended. -/
def objSet (m : List (String × String)) (k v : String) : List (String × String) :=
  if m.any (fun p => p.1 == k) then m.map (fun p => if p.1 == k then (k, v) else p)
  else m ++ [(k, v)]

/-- Per-report inputs of `buildChartData` (the `reportId`-indexed lookups of
the source, already resolved): `queryData` is `result?.data` (`none` when the
result or its `data` is missing) carrying `data.rows` (`none` when absent,
defaulted to `[]` by `rows || []`); `fieldSelection` is
`Object.entries(chartFieldSelection[reportId] || {})` in insertion order. -/
structure ChartEnv where
  queryData : Option (Option (List Row))
  fieldSelection : List (String × Bool)
  chartTypeSel : Option String
  axisX : Option String
  axisY : Option String
  displayOpts : List (String × JVal)
  fmts : List (String × String)
  dispNames : List (String × String)

/-- The selected field names:
`Object.entries(...).filter(([_, v]) => v).map(([col]) => col)`. -/
def selectedFields (sel : List (String × Bool)) : List String :=
  (sel.filter (fun p => p.2)).map (fun p => p.1)

/-- The rows the assembler works on (`result.data.rows || []`; empty when
there is no result). -/
def envRows (env : ChartEnv) : List Row :=
  match env.queryData with
  | some d => d.getD []
  | none => []

/-- `categories = rows.map(row => String(resolveFieldValue(row, categoryField) ?? ""))`. -/
def mkCategories (rows : List Row) (cat : String) : List String :=
  rows.map (fun r => categoryString (resolveFieldValue (some r) (some cat)))

/-- `series = valueFields.map(field => {name, originalName, data})` with the
display-name override (`seriesDisplayNames[reportId]?.[field] || field`) and
the numeric coercion of each cell. -/
def mkSeries (dispNames : List (String × String)) (rows : List Row)
    (valueFields : List String) : List SeriesOut :=
  valueFields.map (fun f =>
    { name := jsOrStr (lookupStr dispNames f) f
      originalName := f
      data := rows.map (fun r => coerceNumeric (resolveFieldValue (some r) (some f))) })

/-- `formatsMap`: for each series, look the configured format up under
`s.originalName || s.name` and, when truthy, store it under the display
name. -/
def mkFormatsMap (fmts : List (String × String)) (series : List SeriesOut) :
    List (String × String) :=
  series.foldl (fun acc s =>
    let origName := if s.originalName = "" then s.name else s.originalName
    match lookupStr fmts origName with
    | some f => if f = "" then acc else objSet acc s.name f
    | none => acc) []

/-- The non-table tail of `buildChartData`: classify, bail out (`null`) when
the category variable is still falsy, then assemble categories, series, the
scale flag, the formats map, the axis labels (`?.x || ""`) and the spread
display options. -/
def assembleChart (chartType : String) (rows : List Row) (selected : List String)
    (axisX axisY : Option String) (dispOpts : List (String × JVal))
    (fmts dispNames : List (String × String)) : Option ChartOut :=
  let cls := classifyFields (isFieldNumeric3 rows) selected
  if jsFalsyS cls.1 then none
  else
    let series := mkSeries dispNames rows cls.2
    some (.chart chartType (mkCategories rows (cls.1.getD "")) series
      (jsOrStr axisX "") (jsOrStr axisY "")
      (mkFormatsMap fmts series)
      ⟨dispOpts, useSeparateScaleApp (series.map (fun s => s.data))⟩)

/-- `buildChartData` of `src/App.jsx`: bail out on a missing result, an empty
selection; short-circuit to the table output; otherwise assemble the chart. -/
def buildChartData (env : ChartEnv) : Option ChartOut :=
  match env.queryData with
  | none => none
  | some dataRows =>
    let selected := selectedFields env.fieldSelection
    if selected.isEmpty then none
    else
      let chartType := jsOrStr env.chartTypeSel "bar"
      if chartType = "table" then some (.table selected (dataRows.getD []))
      else
        assembleChart chartType (dataRows.getD []) selected env.axisX env.axisY
          env.displayOpts env.fmts env.dispNames

/-! Claim-side definitions.  Each of the following follows the wording of a
spec sentence (not the source); the theorems compare them with the source
embeddings above. -/

/-- Claim wording (C1): each series' maximum is taken over its data with a
floor of 0 and then floored to at least 1; `sharedMax` is the maximum of
these; the minimum is over the positive per-series maxima, defaulting to 1
with fewer than 2 series or no positive values; the decision is
`count(series) ≥ 2 AND sharedMax / minPositiveSeriesMax > 20`. -/
def scaleClaim (series : List (List ℚ)) : Bool :=
  let sm := series.map (fun d => max 1 (d.foldl max 0))
  let sharedMax : ℚ :=
    match sm with
    | [] => 0
    | m :: ms => ms.foldl max m
  let pos := sm.filter (fun v => decide (0 < v))
  let minPos : ℚ :=
    if series.length < 2 ∨ pos = [] then 1
    else
      match pos with
      | [] => 1
      | p :: ps => ps.foldl min p
  decide (2 ≤ series.length) && decide (sharedMax / minPos > 20)

/-- Amended wording for the `App.jsx` reconciler: at least 2 series and the
largest unfloored per-series maximum (`max(data, 0)`) exceeds 20 times the
smallest positive unfloored per-series maximum; false when no positive
maximum exists. -/
def scaleAppSpec (series : List (List ℚ)) : Bool :=
  decide (2 ≤ series.length) &&
    (let maxVals := series.map (fun d => d.foldl max 0)
     let bigMax : ℚ :=
       match maxVals with
       | [] => 0
       | m :: ms => ms.foldl max m
     match maxVals.filter (fun v => decide (0 < v)) with
     | [] => false
     | p :: ps => decide (bigMax > 20 * (ps.foldl min p)))

/-- Claim wording (C3): a field is numeric when any of the first 3 non-null
resolved values (taken across all rows) is a number type or parses as a
float. -/
def claimIsNumeric (rows : List Row) (f : String) : Bool :=
  ((((rows.map (fun r => resolveFieldValue (some r) (some f))).filter
      (fun v =>
        match v with
        | none => false
        | some .null => false
        | some .undef => false
        | some _ => true)).take 3).any
    (fun v =>
      match v with
      | some v => isNumericVal v
      | none => false))

/-- Claim wording (C3, classification): the first non-numeric field becomes
the category field and every other selected field becomes a value field in
selection order; when no non-numeric field exists the first selected field
is the category and the rest are value fields. -/
def specClassify (isNum : String → Bool) (selected : List String) :
    Option String × List String :=
  match selected with
  | [] => (none, [])
  | f0 :: rest =>
    match selected.find? (fun f => !(isNum f)) with
    | some c => (some c, selected.erase c)
    | none => (some f0, rest)

/-- Claim wording (C6): the entry equals the resolved value when it is a
number type, otherwise `parseFloat` of the resolved value, and 0 when
unparseable. -/
def coerceSpec (val : Option JVal) : ℚ :=
  match val with
  | some (.num q) => q
  | some v => (jsParseFloatVal v).getD 0
  | none => (jsParseFloatVal .undef).getD 0

/-- Claim wording (C4): resolution tries an exact key match, then a
case-insensitive key match, then a match after lower-casing and stripping
whitespace and underscores from both sides, and reports not-found when none
match. -/
def resolveSpec (r : Row) (f : String) : Option JVal :=
  match rowGet r f with
  | some v => some v
  | none =>
    match (r.map (fun p => p.1)).find? (fun k => lowerStr k == lowerStr f) with
    | some k => rowGet r k
    | none =>
      match (r.map (fun p => p.1)).find? (fun k => normalizeKey k == normalizeKey f) with
      | some k => rowGet r k
      | none => none

/-! Concrete inputs used by witnesses and counterexamples. -/

/-- Scenario A of the spec: two rows, a string `region` column and a numeric
`sales` column, with a display name and a currency format configured for
`sales`. -/
def rowsA : List Row :=
  [[("region", .str "East"), ("sales", .num 100)],
   [("region", .str "West"), ("sales", .num 9000)]]

/-- Environment for scenario A (type defaulted to `bar`). -/
def envA : ChartEnv :=
  { queryData := some (some rowsA)
    fieldSelection := [("region", true), ("sales", true)]
    chartTypeSel := none, axisX := none, axisY := none
    displayOpts := [], fmts := [("sales", "currency")], dispNames := [("sales", "Revenue")] }

/-- One row whose two value columns have maxima `1/2` and `15`: the assembler
turns separate scaling on while the floored formula of the claim says no. -/
def envScaleCex : ChartEnv :=
  { queryData := some (some [[("region", .str "East"), ("x", .num (1 / 2)), ("y", .num 15)]])
    fieldSelection := [("region", true), ("x", true), ("y", true)]
    chartTypeSel := some "bar", axisX := none, axisY := none
    displayOpts := [], fmts := [], dispNames := [] }

/-- Table environment of scenario C. -/
def envTable : ChartEnv :=
  { queryData := some (some [[("a", .num 1), ("b", .num 2)]])
    fieldSelection := [("a", true), ("b", true)]
    chartTypeSel := some "table", axisX := none, axisY := none
    displayOpts := [], fmts := [], dispNames := [] }

/-- Rows whose column `a` is null in the first three rows and numeric in the
fourth, while column `b` is a plain string everywhere. -/
def rowsC3 : List Row :=
  [[("a", .null), ("b", .str "p")],
   [("a", .null), ("b", .str "q")],
   [("a", .null), ("b", .str "r")],
   [("a", .num 5), ("b", .str "s")]]

/-- Environment whose single field is deselected. -/
def envEmptySel : ChartEnv :=
  { queryData := some (some rowsA), fieldSelection := [("region", false)]
    chartTypeSel := none, axisX := none, axisY := none
    displayOpts := [], fmts := [], dispNames := [] }

/-- Environment whose only selected field is the empty string: no category
field can be established (the empty name stays falsy). -/
def envBlankField : ChartEnv :=
  { queryData := some (some rowsA), fieldSelection := [("", true)]
    chartTypeSel := none, axisX := none, axisY := none
    displayOpts := [], fmts := [], dispNames := [] }

end PestCRM

namespace PestCRM

/-- C10: the resolver returns not-found (`undefined`) for a null/undefined
row and for an empty, null or undefined field name; the embedding is a total
function, so no input can raise. -/
theorem c10_resolver_totality :
    ∀ (row : Option Row) (field : Option String),
      row = none ∨ field = none ∨ field = some "" →
      resolveFieldValue row field = none := by
  intro row field h
  rcases h with h | h | h
  · subst h
    cases field <;> rfl
  · subst h
    cases row <;> rfl
  · subst h
    cases row with
    | none => rfl
    | some r => simp [resolveFieldValue]

/-- Witness for C10 at concrete inputs: a missing row, a missing field name
and an empty field name each resolve to not-found. -/
theorem c10_resolver_totality_witness :
    resolveFieldValue none (some "Total_Sales") = none
    ∧ resolveFieldValue (some [("a", .num 1)]) none = none
    ∧ resolveFieldValue (some [("a", .num 1)]) (some "") = none :=
  ⟨c10_resolver_totality none (some "Total_Sales") (Or.inl rfl),
   c10_resolver_totality (some [("a", .num 1)]) none (Or.inr (Or.inl rfl)),
   c10_resolver_totality (some [("a", .num 1)]) (some "") (Or.inr (Or.inr rfl))⟩

/-- C4 (amended): for a nonempty field name and a row whose keys are all
nonempty, the resolver realises the claimed three-stage strategy (exact,
then case-insensitive, then normalised match, else not-found) — the
source's truthiness guards on the fuzzy matches only fire on an
empty-string key — and `Total_Sales` finds the value under the keys
`totalsales`, `Total Sales` and `TOTAL_SALES` alike. -/
theorem c4_resolver_order :
    (∀ (r : Row) (f : String), f ≠ "" → (∀ p ∈ r, p.1 ≠ "") →
      resolveFieldValue (some r) (some f) = resolveSpec r f)
    ∧ (∀ v : JVal, resolveFieldValue (some [("totalsales", v)]) (some "Total_Sales") = some v)
    ∧ (∀ v : JVal, resolveFieldValue (some [("Total Sales", v)]) (some "Total_Sales") = some v)
    ∧ (∀ v : JVal, resolveFieldValue (some [("TOTAL_SALES", v)]) (some "Total_Sales") = some v) := by
  refine ⟨?_, ?_, ?_, ?_⟩
  · intro r f hf hkeys
    have hkey : ∀ k, (r.map (fun p => p.1)).find? (fun g => lowerStr g == lowerStr f) = some k
        ∨ (r.map (fun p => p.1)).find? (fun g => normalizeKey g == normalizeKey f) = some k
        → k ≠ "" := by
      rintro k (hk | hk) <;>
      · obtain ⟨p, hp, rfl⟩ := List.mem_map.mp (List.mem_of_find?_eq_some hk)
        exact hkeys p hp
    simp only [resolveFieldValue, resolveSpec, if_neg hf]
    cases hex : rowGet r f with
    | some v => rfl
    | none =>
      cases hlow : (r.map (fun p => p.1)).find? (fun g => lowerStr g == lowerStr f) with
      | some k =>
        have hk : k ≠ "" := hkey k (Or.inl hlow)
        simp [jsFalsyS, hk]
      | none =>
        cases hnorm : (r.map (fun p => p.1)).find? (fun g => normalizeKey g == normalizeKey f) with
        | some k =>
          have hk : k ≠ "" := hkey k (Or.inr hnorm)
          simp [jsFalsyS, hk]
        | none =>
          simp [jsFalsyS]
  · intro v; rfl
  · intro v; rfl
  · intro v; rfl

/-- Counterexample for C4 as frozen: for the row `{"": 7}` and field `"_"`
— whose normalised forms agree — the claimed three-stage strategy finds a
match at the normalised stage, but the program's `if (normalizedMatch)`
truthiness guard is falsy on the empty-string key, so the source returns
undefined (not-found). -/
theorem c4_resolver_order_cex :
    resolveFieldValue (some [("", .num 7)]) (some "_") = none
    ∧ resolveSpec [("", .num 7)] "_" = some (.num 7) :=
  ⟨rfl, rfl⟩

/-- Witness for C4 at concrete inputs: the general resolution-order equality
at scenario A's first row (nonempty keys), and the three key spellings at a
concrete value. -/
theorem c4_resolver_order_witness :
    resolveFieldValue (some [("region", .str "East"), ("sales", .num 100)]) (some "SALES")
      = resolveSpec [("region", .str "East"), ("sales", .num 100)] "SALES"
    ∧ resolveFieldValue (some [("totalsales", .num 42)]) (some "Total_Sales") = some (.num 42) :=
  ⟨c4_resolver_order.1 [("region", .str "East"), ("sales", .num 100)] "SALES"
      (by decide) (by decide),
   c4_resolver_order.2.1 (.num 42)⟩

/-- C7: with a result present, a non-empty selection and chart type `table`,
`buildChartData` returns exactly the table spec — the selected fields in
selection order as columns and the unmodified row objects — without reaching
the classification or series code. -/
theorem c7_table_short_circuit :
    ∀ (env : ChartEnv) (dataRows : Option (List Row)),
      env.queryData = some dataRows →
      selectedFields env.fieldSelection ≠ [] →
      jsOrStr env.chartTypeSel "bar" = "table" →
      buildChartData env
        = some (.table (selectedFields env.fieldSelection) (dataRows.getD [])) := by
  intro env dataRows hq hsel htype
  cases hs : selectedFields env.fieldSelection with
  | nil => exact absurd hs hsel
  | cons a l =>
    simp [buildChartData, hq, hs, htype]

/-- Witness for C7 at scenario C: selection `[a, b]`, one row `{a:1, b:2}`,
type `table`. -/
theorem c7_table_short_circuit_witness :
    buildChartData envTable
      = some (.table ["a", "b"] [[("a", .num 1), ("b", .num 2)]]) :=
  c7_table_short_circuit envTable (some [[("a", .num 1), ("b", .num 2)]])
    rfl (by decide) rfl

/-- Folding addition over a list equals the initial value plus the sum. -/
theorem foldl_add_eq_sum (l : List ℚ) (a : ℚ) :
    l.foldl (fun x y => x + y) a = a + l.sum := by
  induction l generalizing a with
  | nil => simp
  | cons x xs ih => simp [List.foldl_cons, ih, add_assoc]

/-- C8: when the single pie series sums to zero, every slice's percentage
label is the literal `0.0%`; the computation is total (no NaN value exists in
the model and no division by zero is performed). -/
theorem c8_pie_zero_total :
    ∀ (data : List ℚ), data.sum = 0 → ∀ idx : ℕ, pieSliceLabel data idx = "0.0%" := by
  intro data h idx
  have ht : data.foldl (fun x y => x + y) 0 = 0 := by
    rw [foldl_add_eq_sum, h, add_zero]
  simp [pieSliceLabel, pieSlicePct, jsNumOrZero, ht]

/-- Witness for C8: values `[1, -1]` sum to zero and both slices label as
`0.0%`. -/
theorem c8_pie_zero_total_witness :
    ((1 : ℚ) + (-1 : ℚ) = 0) ∧ pieSliceLabel [1, -1] 0 = "0.0%"
      ∧ pieSliceLabel [1, -1] 1 = "0.0%" :=
  ⟨by norm_num,
   c8_pie_zero_total [1, -1] (by norm_num) 0,
   c8_pie_zero_total [1, -1] (by norm_num) 1⟩

/-- C9: an empty field selection makes the assembler return null, and for a
non-table type it also returns null defensively whenever the classifier
cannot establish a (truthy) category field. -/
theorem c9_empty_selection_null :
    (∀ env : ChartEnv, selectedFields env.fieldSelection = [] → buildChartData env = none)
    ∧ (∀ (env : ChartEnv) (dataRows : Option (List Row)),
        env.queryData = some dataRows →
        jsOrStr env.chartTypeSel "bar" ≠ "table" →
        jsFalsyS (classifyFields (isFieldNumeric3 (dataRows.getD []))
          (selectedFields env.fieldSelection)).1 = true →
        buildChartData env = none) := by
  constructor
  · intro env hsel
    cases hq : env.queryData with
    | none => simp [buildChartData, hq]
    | some dataRows => simp [buildChartData, hq, hsel]
  · intro env dataRows hq htype hcat
    cases hs : selectedFields env.fieldSelection with
    | nil => simp [buildChartData, hq, hs]
    | cons a l =>
      rw [hs] at hcat
      simp [buildChartData, hq, hs, htype, assembleChart, hcat]

/-- Witness for C9: a deselected-field environment yields null, and a
selection containing only an empty-string field name (category never
establishable) yields null for a bar chart. -/
theorem c9_empty_selection_null_witness :
    buildChartData envEmptySel = none ∧ buildChartData envBlankField = none :=
  ⟨c9_empty_selection_null.1 envEmptySel rfl,
   c9_empty_selection_null.2 envBlankField (some rowsA) rfl (by decide) (by decide)⟩

/-- C5: whenever the format string parses to type `percentage` and its
fraction digits are accepted by `Intl.NumberFormat` (no configured decimals
defaulting to 1), the finite input is rendered by the same grouped-decimal
renderer as the plain `number` branch — at those decimals — with a literal
`%` appended and no multiplication by 100; in particular
`format(85, "percentage") = "85.0%"`.  Formats whose decimals segment is
`NaN` or outside 0..100 make the constructor throw and produce no rendering
(the `none` outcome), so they lie outside the conclusion. -/
theorem c5_percentage_no_scaling :
    (∀ (q : ℚ) (fmt : Option String) (d : ℕ),
      (parseFmt fmt).1 = "percentage" →
      intlFractionDigits (parseFmt fmt).2 1 = some d →
      formatValue (.num q) fmt = some (.str (formatGrouped q d ++ "%")))
    ∧ formatValue (.num 85) (some "percentage") = some (.str "85.0%")
    ∧ formatValue (.num 85) (some "percentage:2") = some (.str "85.00%")
    ∧ formatValue (.num 85) (some "percentage:abc") = none := by
  refine ⟨?_, ?_, ?_, ?_⟩
  · intro q fmt d h hd
    simp [formatValue, h, hd]
  · with_unfolding_all decide
  · with_unfolding_all decide
  · with_unfolding_all decide

/-- Witness for C5: the percentage branch at 85 with default decimals,
rendered through the shared grouped formatter, gives `85.0%`. -/
theorem c5_percentage_no_scaling_witness :
    (parseFmt (some "percentage")).1 = "percentage"
    ∧ intlFractionDigits (parseFmt (some "percentage")).2 1 = some 1
    ∧ formatValue (.num 85) (some "percentage") = some (.str (formatGrouped 85 1 ++ "%"))
    ∧ formatGrouped 85 1 ++ "%" = "85.0%" :=
  ⟨by with_unfolding_all decide,
   by with_unfolding_all decide,
   c5_percentage_no_scaling.1 85 (some "percentage") 1
     (by with_unfolding_all decide) (by with_unfolding_all decide),
   by with_unfolding_all decide⟩

/-- Inversion of a chart-producing run of `buildChartData`: the categories
and series of the output are the `mkCategories`/`mkSeries` of the
classifier's result on the environment's rows. -/
theorem buildChartData_chart_inv (env : ChartEnv) (t : String) (cats : List String)
    (ser : List SeriesOut) (xl yl : String) (sf : List (String × String))
    (dopts : DisplayOptionsOut)
    (h : buildChartData env = some (.chart t cats ser xl yl sf dopts)) :
    ∃ cls : Option String × List String,
      cls = classifyFields (isFieldNumeric3 (envRows env)) (selectedFields env.fieldSelection)
      ∧ cats = mkCategories (envRows env) (cls.1.getD "")
      ∧ ser = mkSeries env.dispNames (envRows env) cls.2 := by
  cases hq : env.queryData with
  | none => simp [buildChartData, hq] at h
  | some dataRows =>
    simp only [buildChartData, hq] at h
    split at h
    · exact absurd h (by simp)
    · split at h
      · exact absurd h (by simp)
      · simp only [assembleChart] at h
        split at h
        · exact absurd h (by simp)
        · rw [Option.some_inj] at h
          cases h
          have hr : envRows env = dataRows.getD [] := by simp [envRows, hq]
          exact ⟨_, rfl, by rw [hr], by rw [hr]⟩

/-- C2: every chart spec the assembler produces (bar, line or pie — any
non-table output) has every series' data list exactly as long as its
categories list. -/
theorem c2_series_data_length :
    ∀ (env : ChartEnv) (t : String) (cats : List String) (ser : List SeriesOut)
      (xl yl : String) (sf : List (String × String)) (dopts : DisplayOptionsOut),
      buildChartData env = some (.chart t cats ser xl yl sf dopts) →
      ∀ s ∈ ser, s.data.length = cats.length := by
  intro env t cats ser xl yl sf dopts h s hs
  obtain ⟨cls, -, hcats, hser⟩ := buildChartData_chart_inv env t cats ser xl yl sf dopts h
  subst hcats hser
  simp only [mkSeries, List.mem_map] at hs
  obtain ⟨f, -, rfl⟩ := hs
  simp [mkCategories]

/-- Witness for C2 at scenario A: the single `sales` series of the bar chart
has data length 2, equal to the length of the two category labels. -/
theorem c2_series_data_length_witness :
    (⟨"Revenue", "sales", [100, 9000]⟩ : SeriesOut).data.length
      = (["East", "West"] : List String).length :=
  c2_series_data_length envA "bar" ["East", "West"]
    [⟨"Revenue", "sales", [100, 9000]⟩] "" "" [("Revenue", "currency")] ⟨[], false⟩
    (by decide)
    ⟨"Revenue", "sales", [100, 9000]⟩ (by simp)

/-- C6: the source's cell coercion
(`typeof val === 'number' ? val : parseFloat(val) || 0`) equals the claimed
total function — the value itself for a number type, otherwise `parseFloat`
of the value with 0 for the unparseable case — and every series a produced
chart carries is exactly the row-wise image of that coercion; the coercion is
a total function, so no cell value can raise. -/
theorem c6_numeric_coercion :
    (∀ val : Option JVal, coerceNumeric val = coerceSpec val)
    ∧ (∀ (env : ChartEnv) (t : String) (cats : List String) (ser : List SeriesOut)
        (xl yl : String) (sf : List (String × String)) (dopts : DisplayOptionsOut),
        buildChartData env = some (.chart t cats ser xl yl sf dopts) →
        ∀ s ∈ ser, s.data = (envRows env).map
          (fun r => coerceSpec (resolveFieldValue (some r) (some s.originalName)))) := by
  have hc : ∀ val : Option JVal, coerceNumeric val = coerceSpec val := by
    intro val
    match val with
    | some (.num q) => rfl
    | some (.str s) =>
      simp only [coerceNumeric, coerceSpec, jsTruthyOrZero, jsParseFloatVal]
      cases jsParseFloat s with
      | none => rfl
      | some q =>
        simp only [Option.getD_some]
        split <;> simp_all
    | some (.bool b) =>
      cases b <;> rfl
    | some .null => rfl
    | some .undef => rfl
    | none => rfl
  refine ⟨hc, ?_⟩
  intro env t cats ser xl yl sf dopts h s hs
  obtain ⟨cls, -, -, hser⟩ := buildChartData_chart_inv env t cats ser xl yl sf dopts h
  subst hser
  simp only [mkSeries, List.mem_map] at hs
  obtain ⟨f, -, rfl⟩ := hs
  simp [hc]

/-- Witness for C6 at scenario A: the `sales` series carries exactly the
claim-side coercion of each row's resolved `sales` value. -/
theorem c6_numeric_coercion_witness :
    (⟨"Revenue", "sales", [100, 9000]⟩ : SeriesOut).data
      = (envRows envA).map
          (fun r => coerceSpec (resolveFieldValue (some r) (some "sales"))) :=
  c6_numeric_coercion.2 envA "bar" ["East", "West"]
    [⟨"Revenue", "sales", [100, 9000]⟩] "" "" [("Revenue", "currency")] ⟨[], false⟩
    (by decide)
    ⟨"Revenue", "sales", [100, 9000]⟩ (by simp)

/-- Once the category variable holds a truthy (nonempty) name, the classifier
loop only appends the remaining fields to the value fields. -/
theorem classifyLoop_of_not_falsy (isNum : String → Bool) (l : List String)
    (cat : Option String) (vals : List String) (h : jsFalsyS cat = false) :
    classifyLoop isNum l cat vals = (cat, vals ++ l) := by
  induction l generalizing vals with
  | nil => simp [classifyLoop]
  | cons f rest ih =>
    have hcond : (!(isNum f) && jsFalsyS cat) = false := by
      rw [h, Bool.and_false]
    simp only [classifyLoop, hcond]
    rw [if_neg (by simp)]
    rw [ih]
    simp

/-- Characterisation of the classifier loop started with a null category over
nonempty field names: the first field failing the numeric test becomes the
category and is removed from the value-field order. -/
theorem classifyLoop_none (isNum : String → Bool) (l : List String)
    (vals : List String) (hne : ∀ f ∈ l, f ≠ "") :
    classifyLoop isNum l none vals =
      match l.find? (fun f => !(isNum f)) with
      | some c => (some c, vals ++ l.erase c)
      | none => (none, vals ++ l) := by
  induction l generalizing vals with
  | nil => simp [classifyLoop]
  | cons f rest ih =>
    have hf' : f ≠ "" := hne f (List.mem_cons_self f rest)
    by_cases hf : isNum f
    · have hcond : (!(isNum f) && jsFalsyS (none : Option String)) = false := by
        simp [hf]
      simp only [classifyLoop, hcond]
      rw [if_neg (by simp)]
      rw [ih (vals ++ [f]) (fun g hg => hne g (List.mem_cons_of_mem f hg))]
      have hfind : (f :: rest).find? (fun x => !(isNum x)) = rest.find? (fun x => !(isNum x)) := by
        simp [List.find?_cons, hf]
      rw [hfind]
      cases hfr : rest.find? (fun x => !(isNum x)) with
      | none => simp
      | some c =>
        have hcnum := List.find?_some hfr
        have hfc : (f == c) = false := by
          simp only [beq_eq_false_iff_ne, ne_eq]
          intro hEq
          rw [hEq] at hf
          simp [hf] at hcnum
        simp [List.erase_cons, hfc]
    · have hcond : (!(isNum f) && jsFalsyS (none : Option String)) = true := by
        simp [hf, jsFalsyS]
      simp only [classifyLoop, hcond]
      rw [if_pos trivial]
      rw [classifyLoop_of_not_falsy isNum rest (some f) vals (by simp [jsFalsyS, hf'])]
      have hfind : (f :: rest).find? (fun x => !(isNum x)) = some f := by
        simp [List.find?_cons, hf]
      rw [hfind]
      simp [List.erase_cons]

/-- C3 (amended): over nonempty field names the classifier equals the
spec-side classifier (first non-numeric field becomes the category, all
other fields become value fields in order, first-field fallback when every
field is numeric); the assembler's numeric probe consults only the first 3
rows (not the first 3 non-null values), every field is non-numeric on zero
rows, and the ReportsView/useCharts variants consult only the first row. -/
theorem c3_classifier_amended :
    (∀ (isNum : String → Bool) (selected : List String),
      (∀ f ∈ selected, f ≠ "") →
      classifyFields isNum selected = specClassify isNum selected)
    ∧ (∀ (rows : List Row) (f : String),
        isFieldNumeric3 rows f = isFieldNumeric3 (rows.take 3) f)
    ∧ (∀ f : String, isFieldNumeric3 [] f = false)
    ∧ (∀ (rows : List Row) (f : String),
        isFieldNumeric1 rows f = isFieldNumeric1 (rows.take 1) f) := by
  refine ⟨?_, ?_, ?_, ?_⟩
  · intro isNum selected hne
    unfold classifyFields specClassify
    rw [classifyLoop_none isNum selected [] hne]
    cases hfind : selected.find? (fun f => !(isNum f)) with
    | some c =>
      have hc : c ∈ selected := List.mem_of_find?_eq_some hfind
      have hcne : (jsFalsyS (some c)) = false := by
        simp [jsFalsyS, hne c hc]
      cases selected with
      | nil => simp at hc
      | cons f0 rest =>
        simp [hfind, hcne]
    | none =>
      cases selected with
      | nil => simp [jsFalsyS]
      | cons f0 rest =>
        simp [hfind, jsFalsyS]
  · intro rows f
    simp [isFieldNumeric3, List.take_take]
  · intro f
    rfl
  · intro rows f
    cases rows <;> simp [isFieldNumeric1]

/-- Counterexample for C3 as frozen: on rows whose column `a` is null in the
first three rows and numeric in the fourth (while `b` is a non-numeric
string), the code classifies `a` as non-numeric — it samples only the first
3 rows — so `a` becomes the category field; sampling the first 3 *non-null*
values, as the claim states, would classify `a` numeric and make `b` the
category field. -/
theorem c3_classifier_cex :
    isFieldNumeric3 rowsC3 "a" = false
    ∧ claimIsNumeric rowsC3 "a" = true
    ∧ classifyFields (isFieldNumeric3 rowsC3) ["a", "b"] = (some "a", ["b"])
    ∧ specClassify (claimIsNumeric rowsC3) ["a", "b"] = (some "b", ["a"]) :=
  ⟨by decide, by decide, by decide, by decide⟩

/-- Witness for C3 at scenario A: the classifier agrees with the spec-side
classifier on the nonempty selection `[region, sales]`. -/
theorem c3_classifier_amended_witness :
    classifyFields (isFieldNumeric3 rowsA) ["region", "sales"]
      = specClassify (isFieldNumeric3 rowsA) ["region", "sales"] :=
  c3_classifier_amended.1 (isFieldNumeric3 rowsA) ["region", "sales"] (by decide)

/-- Folding `max` with a lower start distributes over the start. -/
theorem foldl_max_max (l : List ℚ) (a b : ℚ) :
    l.foldl max (max a b) = max a (l.foldl max b) := by
  induction l generalizing b with
  | nil => simp
  | cons c t ih =>
    simp only [List.foldl_cons]
    rw [max_assoc, ih]

/-- The start of a `max` fold bounds the result from below. -/
theorem le_foldl_max (l : List ℚ) (b : ℚ) : b ≤ l.foldl max b := by
  induction l generalizing b with
  | nil => simp
  | cons c t ih =>
    simp only [List.foldl_cons]
    exact le_trans (le_max_left b c) (ih (max b c))

/-- A `min` fold over values that are all at least 1, started at a value at
least 1, stays at least 1. -/
theorem one_le_foldl_min (l : List ℚ) (b : ℚ) (hb : 1 ≤ b)
    (hl : ∀ x ∈ l, 1 ≤ x) : 1 ≤ l.foldl min b := by
  induction l generalizing b with
  | nil => simpa
  | cons c t ih =>
    simp only [List.foldl_cons]
    exact ih (min b c) (le_min hb (hl c (List.mem_cons_self c t)))
      (fun x hx => hl x (List.mem_cons_of_mem c hx))

/-- The widget's per-series maximum equals the claim-side floored maximum
(taking the data maximum with a floor of 0 and then flooring at 1). -/
theorem seriesMaxW_eq (d : List ℚ) : seriesMaxW d = max 1 (d.foldl max 0) := by
  cases d with
  | nil => simp [seriesMaxW]
  | cons x xs =>
    simp only [seriesMaxW, List.foldl_cons]
    rw [foldl_max_max xs 0 x, ← max_assoc]
    norm_num

/-- Every widget per-series maximum is at least 1. -/
theorem one_le_seriesMaxW (d : List ℚ) : 1 ≤ seriesMaxW d :=
  le_max_left 1 _

/-- Closed form of the widget scale decision on a nonempty series list: the
ratio of the fold-maximum to the fold-minimum of the per-series maxima,
compared against 20. -/
theorem useSeparateScaleW_cons (d1 : List ℚ) (ds : List (List ℚ)) :
    useSeparateScaleW (d1 :: ds)
      = decide ((((ds.map seriesMaxW).foldl max (seriesMaxW d1)) /
          ((ds.map seriesMaxW).foldl min (seriesMaxW d1))) > 20) := by
  have h1 : (1 : ℚ) ≤ seriesMaxW d1 := one_le_seriesMaxW d1
  have hall : ∀ x ∈ ds.map seriesMaxW, (1 : ℚ) ≤ x := by
    intro x hx
    obtain ⟨d, -, rfl⟩ := List.mem_map.mp hx
    exact one_le_seriesMaxW d
  simp only [useSeparateScaleW, List.map_cons, List.foldl_cons]
  rw [decide_eq_decide]
  have e1 : max 1 ((ds.map seriesMaxW).foldl max (max 1 (seriesMaxW d1)))
      = (ds.map seriesMaxW).foldl max (seriesMaxW d1) := by
    rw [foldl_max_max (ds.map seriesMaxW) 1 (seriesMaxW d1), ← max_assoc, max_self]
    exact max_eq_right (le_trans h1 (le_foldl_max (ds.map seriesMaxW) (seriesMaxW d1)))
  have e2 : max 1 ((ds.map seriesMaxW).foldl min (seriesMaxW d1))
      = (ds.map seriesMaxW).foldl min (seriesMaxW d1) :=
    max_eq_right (one_le_foldl_min (ds.map seriesMaxW) (seriesMaxW d1) h1 hall)
  rw [e1, e2]

/-- Closed form of the claim-side scale decision on two or more series: same
ratio of folded maxima over folded minima of the floored per-series maxima,
compared against 20. -/
theorem scaleClaim_cons2 (d1 d2 : List ℚ) (rest : List (List ℚ)) :
    scaleClaim (d1 :: d2 :: rest)
      = decide (((((d2 :: rest).map seriesMaxW).foldl max (seriesMaxW d1)) /
          (((d2 :: rest).map seriesMaxW).foldl min (seriesMaxW d1))) > 20) := by
  have hfun : (fun d : List ℚ => max 1 (d.foldl max 0)) = seriesMaxW :=
    funext fun d => (seriesMaxW_eq d).symm
  have hall : ∀ x ∈ (seriesMaxW d1 :: seriesMaxW d2 :: rest.map seriesMaxW), (1 : ℚ) ≤ x := by
    intro x hx
    simp only [List.mem_cons] at hx
    rcases hx with rfl | rfl | hx
    · exact one_le_seriesMaxW d1
    · exact one_le_seriesMaxW d2
    · obtain ⟨d, -, rfl⟩ := List.mem_map.mp hx
      exact one_le_seriesMaxW d
  have hfilter :
      (seriesMaxW d1 :: seriesMaxW d2 :: rest.map seriesMaxW).filter (fun v => decide (0 < v))
        = seriesMaxW d1 :: seriesMaxW d2 :: rest.map seriesMaxW := by
    apply List.filter_eq_self.mpr
    intro x hx
    simpa using lt_of_lt_of_le zero_lt_one (hall x hx)
  have h2 : 2 ≤ (d1 :: d2 :: rest).length := by
    simp only [List.length_cons]
    omega
  simp only [scaleClaim, hfun, List.map_cons, hfilter, List.length_cons]
  rw [if_neg (by
    rintro (h | h)
    · omega
    · exact List.cons_ne_nil _ _ h)]
  have h2' : decide (2 ≤ (d1 :: d2 :: rest).length) = true := decide_eq_true h2
  simp only [List.length_cons] at h2'
  simp only [h2', Bool.true_and, List.foldl_cons]

/-- C1 (amended): the rendering-layer ScaleReconciler
(`DashboardStatsWidget.ReportChart`) satisfies the claim exactly — separate
scaling iff at least 2 series and floored `sharedMax / minSeriesMax > 20` —
while the assembler in `App.jsx` uses the unfloored per-series maxima: there
separate scaling holds iff at least 2 series and the largest maximum exceeds
20 times the smallest positive per-series maximum (false when none is
positive). -/
theorem c1_scale_decision_amended :
    ∀ series : List (List ℚ),
      useSeparateScaleW series = scaleClaim series
      ∧ useSeparateScaleApp series = scaleAppSpec series := by
  intro series
  constructor
  · cases series with
    | nil => with_unfolding_all decide
    | cons d1 tail =>
      cases tail with
      | nil =>
        rw [useSeparateScaleW_cons d1 []]
        simp only [List.map_nil, List.foldl_nil]
        have h1 : (1 : ℚ) ≤ seriesMaxW d1 := one_le_seriesMaxW d1
        have hq : seriesMaxW d1 / seriesMaxW d1 = 1 :=
          div_self (ne_of_gt (lt_of_lt_of_le zero_lt_one h1))
        have hr : scaleClaim [d1] = false := by
          simp [scaleClaim]
        rw [hr, decide_eq_false_iff_not, hq]
        norm_num
      | cons d2 rest =>
        rw [useSeparateScaleW_cons d1 (d2 :: rest), scaleClaim_cons2 d1 d2 rest]
  · simp only [useSeparateScaleApp, scaleAppSpec]
    by_cases hl : 1 < series.length
    · have h2 : 2 ≤ series.length := hl
      rw [if_pos hl]
      simp only [decide_eq_true h2, Bool.true_and]
      cases hpos : (series.map (fun d => d.foldl max 0)).filter (fun v => decide (0 < v)) with
      | nil => rfl
      | cons p ps =>
        simp only [mul_comm]
    · have h2 : ¬ (2 ≤ series.length) := by omega
      rw [if_neg hl]
      simp [h2]

/-- Counterexample for C1 as frozen: one row with value columns `x = 1/2`
and `y = 15` builds series maxima `[1/2, 15]`; the assembler's decision is
separate scaling (`15 > (1/2)·20`), while the claim's floored formula
(`15 / max(1, 1/2) = 15 ≤ 20` with at least 2 series) says shared scaling. -/
theorem c1_scale_decision_cex :
    buildChartData envScaleCex
      = some (.chart "bar" ["East"]
          [⟨"x", "x", [1 / 2]⟩, ⟨"y", "y", [15]⟩] "" "" [] ⟨[], true⟩)
    ∧ scaleClaim [[(1 : ℚ) / 2], [15]] = false :=
  ⟨by with_unfolding_all decide, by with_unfolding_all decide⟩

end PestCRM
